import Mathlib

/-!
Verification of the local request/response bridge of the windsurf-chat-open
extension: the HTTP request ledger of `HttpService` (registration, supersession,
timeout, answer delivery and shutdown draining), its port allocator
(`tryListen` / `getNextPort`), and the panel side (`ChatPanelProvider.showPrompt`
and `_handleSubmit`).

Embedding conventions: JavaScript strings are `String`; the millisecond clock
reading `Date.now()` is an explicit `Nat` parameter; `http.ServerResponse`
objects are `Conn` records tracking the list of terminal payloads written by
`res.end` together with the `writableEnded` flag; the JS `Map` holding pending
requests is an insertion-ordered association list with first-match lookup;
`setTimeout` timers are recorded in the pending entry (`none` when no timer was
armed) and a timer can only fire while it is still armed, since every path that
removes an entry also clears its timer; `crypto.randomBytes` and the success of
`fs.writeFileSync` are explicit parameters.
-/

set_option linter.unusedVariables false
set_option maxRecDepth 8192

/-- Decimal digit characters of a natural number, most significant first.  The
fuel argument only bounds the recursion depth; any fuel of at least `n` gives
the digits of `n`. -/
def decimalChars (fuel : Nat) (n : Nat) : List Char :=
  match fuel with
  | 0 => []
  | fuel + 1 => if n = 0 then [] else decimalChars fuel (n / 10) ++ [Nat.digitChar (n % 10)]

/-- Embedding of the JavaScript `Number.prototype.toString()` (base 10) on
nonnegative integers, as used by `Date.now().toString()` and by numeric
template-literal interpolation. -/
def jsNatToString (n : Nat) : String :=
  if n = 0 then "0" else String.mk (decimalChars (n + 1) n)

/-- Embedding of `String.prototype.trim()`: drop leading and trailing
whitespace characters. -/
def jsTrim (s : String) : String :=
  String.mk (((s.data.dropWhile Char.isWhitespace).reverse.dropWhile Char.isWhitespace).reverse)

/-- Two lowercase hexadecimal characters of one byte. -/
def byteToHexChars (b : Nat) : List Char :=
  [Nat.digitChar (b / 16), Nat.digitChar (b % 16)]

/-- Embedding of `Buffer.prototype.toString('hex')`: two lowercase hex
characters per byte, as produced by `crypto.randomBytes(4).toString('hex')`. -/
def bytesToHex (bs : List Nat) : String :=
  String.mk (bs.map byteToHexChars).flatten

/- Constants from `src/constants.ts` (provided among the sources). -/

def BASE_PORT : Nat := 34500

def MAX_PORT_ATTEMPTS : Nat := 100

def WEBVIEW_READY_TIMEOUT_MS : Nat := 5000

def LONG_TEXT_THRESHOLD : Nat := 500

/-- Modelled from the spec: `DEFAULT_REQUEST_TIMEOUT_MS` is imported by
`httpService.ts` from the constants module, whose current revision is not among
the provided sources.  The spec only requires a configured default timeout; the
value follows the predecessor constant `REQUEST_TIMEOUT_MS` (30 minutes).  The
claims below do not depend on the exact value, only on it being a fixed
positive whole number of minutes expressed in milliseconds. -/
def DEFAULT_REQUEST_TIMEOUT_MS : Int := 30 * 60 * 1000

/-- Modelled from the spec: the `ERROR_MESSAGES` table lives in the constants
module, whose current revision is not among the provided sources.  The spec
describes distinct synthetic error answers for supersession, timeout,
cancellation and shutdown; only the identity (distinctness) of the messages
matters to the claims, not their wording. -/
def ERROR_REQUEST_SUPERSEDED : String := "Request superseded by a new request"

/-- Modelled from the spec: see `ERROR_REQUEST_SUPERSEDED`.  The wording
follows the timeout message of the predecessor revision. -/
def ERROR_REQUEST_TIMEOUT : String := "Timed out waiting for user response"

/-- Modelled from the spec: see `ERROR_REQUEST_SUPERSEDED`. -/
def ERROR_REQUEST_CANCELLED : String := "Request was cancelled"

/-- Modelled from the spec: see `ERROR_REQUEST_SUPERSEDED`. -/
def ERROR_EXTENSION_DEACTIVATED : String := "Extension was deactivated"

/-- The terminal JSON payload passed to `res.end` on a request connection
(`action`, optional `error`, `text`, `images`). -/
structure AnswerPayload where
  action : String
  error : Option String
  text : String
  images : List String
deriving DecidableEq

/-- `HttpService.createErrorResponse`: the synthetic `error` answer with empty
`text` and `images`. -/
def createErrorResponse (error : String) : AnswerPayload :=
  { action := "error", error := some error, text := "", images := [] }

/-- One `http.ServerResponse`: the payloads written by `res.end` so far and the
`writableEnded` flag. -/
structure Conn where
  writableEnded : Bool
  written : List AnswerPayload
deriving DecidableEq

/-- A newly accepted connection: nothing written, not ended. -/
def freshConn : Conn :=
  { writableEnded := false, written := [] }

/-- `res.writeHead(200, ...); res.end(JSON.stringify(p))`: appends the terminal
payload and marks the sink terminated. -/
def endConn (c : Conn) (p : AnswerPayload) : Conn :=
  { writableEnded := true, written := c.written ++ [p] }

/-- One entry of the `pendingRequests` map: the index of its response sink and
the armed timeout timer (`none` when `timeoutMs` was not positive). -/
structure PendingEntry where
  resId : Nat
  timer : Option Int
deriving DecidableEq

/-- First-match lookup in an insertion-ordered association list (JS
`Map.prototype.get`). -/
def mapGet {α : Type} (m : List (String × α)) (k : String) : Option α :=
  match m with
  | [] => none
  | (k1, v) :: rest => if k1 = k then some v else mapGet rest k

/-- JS `Map.prototype.set`: replace in place when the key is present, append
otherwise. -/
def mapSet {α : Type} (m : List (String × α)) (k : String) (v : α) : List (String × α) :=
  match m with
  | [] => [(k, v)]
  | (k1, v1) :: rest => if k1 = k then (k, v) :: rest else (k1, v1) :: mapSet rest k v

/-- JS `Map.prototype.delete`: remove the entry for the key.  (A JS map never
holds two entries with the same key, so removing every match is the same as
removing the single one.) -/
def mapDelete {α : Type} (m : List (String × α)) (k : String) : List (String × α) :=
  match m with
  | [] => []
  | (k1, v1) :: rest => if k1 = k then mapDelete rest k else (k1, v1) :: mapDelete rest k

/-- JS `Map.prototype.keys`, in insertion order. -/
def mapKeys {α : Type} (m : List (String × α)) : List String :=
  m.map (fun e => e.1)

/-- The state of one `HttpService` instance: the connections seen so far
(indexed by position), the `pendingRequests` map, the `activeRequestId`
fallback pointer, and whether the listening server is still open. -/
structure BridgeState where
  conns : List Conn
  pendingRequests : List (String × PendingEntry)
  activeRequestId : Option String
  serverOpen : Bool
deriving DecidableEq

/-- A freshly started service: no connections, nothing pending. -/
def initState : BridgeState :=
  { conns := [], pendingRequests := [], activeRequestId := none, serverOpen := true }

/-- The `requestId` field of a request body as seen by JavaScript: absent,
a string, or present with some non-string type. -/
inductive JsonField where
  | absent
  | str (s : String)
  | nonString
deriving DecidableEq

/-- `HttpService.validateRequestId`: a missing, non-string, empty or
whitespace-only identifier is replaced by `Date.now().toString()`; otherwise
the identifier is trimmed.  (The JS guard `!requestId` on the empty string is
subsumed by the trim test.) -/
def validateRequestId (now : Nat) (requestId : JsonField) : String :=
  match requestId with
  | .str s => if jsTrim s = "" then jsNatToString now else jsTrim s
  | _ => jsNatToString now

/-- Whether a `requestId` field falls into the defaulting cases of
`validateRequestId` (absent, non-string, empty or whitespace-only). -/
def isBlankRequestId (requestId : JsonField) : Bool :=
  match requestId with
  | .str s => jsTrim s == ""
  | _ => true

/-- The effective timeout in milliseconds computed by
`handleIncomingRequest`: the caller-supplied `timeoutMinutes` when present
(`??`), otherwise the configured default expressed in minutes; zero minutes
means no timeout. -/
def effectiveTimeoutMs (timeoutMinutes : Option Int) : Int :=
  let m : Int :=
    match timeoutMinutes with
    | some m => m
    | none => DEFAULT_REQUEST_TIMEOUT_MS / 60000
  if m = 0 then 0 else m * 60 * 1000

/-- `HttpService.clearPendingRequest(requestId, sendResp, responseData)`:
clear the timer of the entry, optionally write the cancellation payload when
the sink is not already terminated, and remove the entry from the map. -/
def clearPendingRequest (s : BridgeState) (requestId : String) (sendResp : Bool)
    (responseData : Option AnswerPayload) : BridgeState :=
  match mapGet s.pendingRequests requestId with
  | none => s
  | some pending =>
    let s1 :=
      if sendResp then
        match s.conns[pending.resId]? with
        | some c =>
          if c.writableEnded then s
          else
            let payload := responseData.getD (createErrorResponse ERROR_REQUEST_CANCELLED)
            { s with conns := s.conns.set pending.resId (endConn c payload) }
        | none => s
      else s
    { s1 with pendingRequests := mapDelete s1.pendingRequests requestId }

/-- The validated `POST /request` path of `HttpService.handleIncomingRequest`
(after JSON parsing and prompt validation succeed): resolve the identifier,
supersede any pending request with the same identifier, set
`activeRequestId`, notify the presentation surface (no ledger effect), arm the
timer when the effective timeout is positive, and register the fresh
connection in `pendingRequests`. -/
def registerRequest (s : BridgeState) (requestIdField : JsonField)
    (timeoutMinutes : Option Int) (now : Nat) : BridgeState :=
  let requestId := validateRequestId now requestIdField
  let s1 := clearPendingRequest s requestId true
    (some (createErrorResponse ERROR_REQUEST_SUPERSEDED))
  let s2 := { s1 with activeRequestId := some requestId }
  let timeoutMs := effectiveTimeoutMs timeoutMinutes
  let timer : Option Int := if timeoutMs > 0 then some timeoutMs else none
  { s2 with
    conns := s2.conns ++ [freshConn],
    pendingRequests := mapSet s2.pendingRequests requestId
      { resId := s2.conns.length, timer := timer } }

/-- The body of the `setTimeout` callback armed by `handleIncomingRequest`:
if the identifier is still pending and its sink is not already terminated,
write the timeout error answer and drop the entry. -/
def fireTimer (s : BridgeState) (requestId : String) : BridgeState :=
  match mapGet s.pendingRequests requestId with
  | none => s
  | some pending =>
    match s.conns[pending.resId]? with
    | none => s
    | some c =>
      if c.writableEnded then s
      else
        { s with
          conns := s.conns.set pending.resId
            (endConn c (createErrorResponse ERROR_REQUEST_TIMEOUT)),
          pendingRequests := mapDelete s.pendingRequests requestId }

/-- The JS expression `requestId || this.activeRequestId`: an absent or empty
(falsy) explicit identifier falls back to the active pointer. -/
def jsOrElse (a : Option String) (b : Option String) : Option String :=
  match a with
  | some s => if s = "" then b else some s
  | none => b

/-- `HttpService.sendResponse(response, requestId)`: resolve the target
identifier by fallback, and when it names a pending entry, write the answer to
its sink unless the sink is already terminated, remove the entry, and reset
`activeRequestId` when it pointed at this identifier. -/
def sendResponse (s : BridgeState) (response : AnswerPayload)
    (requestId : Option String) : BridgeState :=
  match jsOrElse requestId s.activeRequestId with
  | none => s
  | some targetId =>
    if targetId = "" then s
    else
      match mapGet s.pendingRequests targetId with
      | none => s
      | some pending =>
        let s1 :=
          match s.conns[pending.resId]? with
          | none => s
          | some c =>
            if c.writableEnded then s
            else { s with conns := s.conns.set pending.resId (endConn c response) }
        let s2 := clearPendingRequest s1 targetId false none
        if s2.activeRequestId = some targetId then { s2 with activeRequestId := none } else s2

/-- One iteration of the shutdown loop of `HttpService.dispose`: clear a
pending request, sending the deactivation error answer. -/
def shutdownClear (s : BridgeState) (requestId : String) : BridgeState :=
  clearPendingRequest s requestId true (some (createErrorResponse ERROR_EXTENSION_DEACTIVATED))

/-- The shutdown loop of `HttpService.dispose` over a snapshot of the pending
keys. -/
def drainPending (keys : List String) (s : BridgeState) : BridgeState :=
  keys.foldl shutdownClear s

/-- `HttpService.dispose`: resolve every remaining pending entry with the
deactivation error answer (iterating over `Array.from(pendingRequests.keys())`),
then close the listening server. -/
def dispose (s : BridgeState) : BridgeState :=
  let drained := drainPending (mapKeys s.pendingRequests) s
  { drained with serverOpen := false }

/-- The resolution events that can target the ledger: a validated
`POST /request` (registration, which supersedes), an armed timer firing, a
human answer delivered through `sendResponse`, and disposal.  A `setTimeout`
callback can only run while its timer is armed; every path that removes or
replaces an entry also clears that entry's timer, so a runnable callback is
exactly one whose identifier currently maps to an entry holding an armed
timer. -/
inductive Event where
  | register (requestIdField : JsonField) (timeoutMinutes : Option Int) (now : Nat)
  | timerFires (requestId : String)
  | answer (response : AnswerPayload) (requestId : Option String)
  | shutdown

/-- The effect of one event on the service state. -/
def step (s : BridgeState) (e : Event) : BridgeState :=
  match e with
  | .register f tm now => registerRequest s f tm now
  | .timerFires rid =>
    match mapGet s.pendingRequests rid with
    | some pending => if pending.timer.isSome then fireTimer s rid else s
    | none => s
  | .answer resp rid => sendResponse s resp rid
  | .shutdown => dispose s

/-- The effect of a sequence of events. -/
def steps (s : BridgeState) (l : List Event) : BridgeState :=
  l.foldl step s

/-- A connection that respects single resolution: nothing was written before
`res.end`, and at most one terminal payload is ever written. -/
def ConnSingle (c : Conn) : Prop :=
  (c.writableEnded = false → c.written = []) ∧ c.written.length ≤ 1

/-- Every connection of the state respects single resolution. -/
def StateInv (s : BridgeState) : Prop :=
  ∀ c ∈ s.conns, ConnSingle c

instance (c : Conn) : Decidable (ConnSingle c) := by
  unfold ConnSingle
  infer_instance

instance (s : BridgeState) : Decidable (StateInv s) := by
  unfold StateInv
  infer_instance

/- Port allocator. -/

/-- `HttpService.getNextPort`: advance sequentially, wrapping back to the base
after the top of the range. -/
def getNextPort (currentPort : Nat) : Nat :=
  let nextPort := currentPort + 1
  if nextPort > BASE_PORT + MAX_PORT_ATTEMPTS then BASE_PORT else nextPort

/-- The observable outcome of an allocation attempt: the bound port (`none`
for the could-not-find-an-available-port rejection), the ports written to the
descriptor files (`writePortFiles`), and the ports actually passed to
`server.listen`, in order. -/
structure ListenOutcome where
  port : Option Nat
  portFileWrites : List Nat
  attempted : List Nat
deriving DecidableEq

/-- `HttpService.tryListen(port, attempt)` with the `triedPorts` set made
explicit; `occupied` tells which ports make `listen` fail with `EADDRINUSE`.
A port already in `triedPorts` is skipped (consuming one attempt); otherwise
the port is added to `triedPorts` and tried, advancing on `EADDRINUSE` and
succeeding otherwise (whereupon the port is written to the descriptor
files). -/
def tryListen (occupied : Nat → Bool) (port : Nat) (attempt : Nat) (tried : List Nat) :
    ListenOutcome :=
  if MAX_PORT_ATTEMPTS ≤ attempt then { port := none, portFileWrites := [], attempted := [] }
  else if port ∈ tried then
    tryListen occupied (getNextPort port) (attempt + 1) tried
  else if occupied port then
    let rest := tryListen occupied (getNextPort port) (attempt + 1) (tried ++ [port])
    { rest with attempted := port :: rest.attempted }
  else
    { port := some port, portFileWrites := [port], attempted := [port] }
termination_by MAX_PORT_ATTEMPTS - attempt
decreasing_by all_goals omega

/-- `HttpService.start`: allocation begins at the base port with an empty
`triedPorts` set. -/
def allocatePort (occupied : Nat → Bool) : ListenOutcome :=
  tryListen occupied BASE_PORT 0 []

/-- The first non-occupied port among `start, start+1, ..., start+n-1`
(reference function for the scan characterization). -/
def firstFree (occupied : Nat → Bool) : Nat → Nat → Option Nat
  | _, 0 => none
  | start, n + 1 => if occupied start then firstFree occupied (start + 1) n else some start

/- Presentation surface (ChatPanelProvider). -/

/-- A response fired on the `onUserResponse` emitter. -/
structure UserResponse where
  action : String
  text : String
  images : List String
  requestId : Option String
deriving DecidableEq

/-- A `showPrompt` message posted to the webview. -/
structure PanelMessage where
  type : String
  prompt : String
  requestId : Option String
  startTimer : Bool
deriving DecidableEq

/-- Which branch of the `Promise.race` between the view-ready promise and the
`WEBVIEW_READY_TIMEOUT_MS` rejection settles first. -/
inductive ReadyOutcome where
  | ready
  | timedOut
deriving DecidableEq

/-- The warning fired when the readiness wait times out. -/
def WEBVIEW_NOT_READY_WARNING : String :=
  "[WindsurfChatOpen 警告] Webview 面板未就绪，请重试。如果问题持续，请尝试重新打开面板。"

/-- The warning fired when no view is available after the focus attempt. -/
def PANEL_UNAVAILABLE_WARNING : String :=
  "[WindsurfChatOpen 警告] 面板视图不可用，请重试。如果问题持续，请尝试重新打开面板。"

/-- The observable effects of one `showPrompt` call: messages posted to the
webview and responses fired on the emitter. -/
structure ShowPromptEffects where
  posted : List PanelMessage
  fired : List UserResponse
deriving DecidableEq

/-- `ChatPanelProvider.showPrompt`: when the readiness race times out, the
catch block fires a warning `continue` answer and returns; when the view is
ready and available, the show-prompt message is posted; when no view is
available, the other warning is fired. -/
def showPrompt (viewAvailable : Bool) (raceResult : ReadyOutcome) (prompt : String)
    (requestId : Option String) : ShowPromptEffects :=
  match raceResult with
  | .timedOut =>
    { posted := [],
      fired := [{ action := "continue", text := WEBVIEW_NOT_READY_WARNING,
                  images := [], requestId := requestId }] }
  | .ready =>
    if viewAvailable then
      { posted := [{ type := "showPrompt", prompt := prompt, requestId := requestId,
                     startTimer := true }],
        fired := [] }
    else
      { posted := [],
        fired := [{ action := "continue", text := PANEL_UNAVAILABLE_WARNING,
                    images := [], requestId := requestId }] }

/- Submission assembler (ChatPanelProvider._handleSubmit). -/

/-- `path.join(dir, name)` for the temp-file paths built by the panel. -/
def pathJoin (dir fileName : String) : String :=
  dir ++ "/" ++ fileName

/-- The temp-file path of the i-th saved image of a submission. -/
def imgFilePath (tempDir uniqueId : String) (i : Nat) : String :=
  pathJoin tempDir ("wsc_img_" ++ uniqueId ++ "_" ++ jsNatToString i ++ ".png")

/-- The temp-file path of the overflow text file of a submission. -/
def overflowFilePath (tempDir uniqueId : String) : String :=
  pathJoin tempDir ("windsurf_chat_instruction_" ++ uniqueId ++ ".txt")

/-- The image-failure warning put in front of the answer text (empty when all
images were saved). -/
def imageWarning (failedImages : List Nat) : String :=
  if failedImages.length > 0 then
    "[WindsurfChatOpen 警告] 第 " ++ String.intercalate ", " (failedImages.map jsNatToString)
      ++ " 张图片保存失败\n\n"
  else ""

/-- The pointer message replacing oversized text, naming the overflow file. -/
def longTextPointer (overflowPath : String) : String :=
  "[Content too long, saved to file]\n\nUser provided full instruction, please use read_file tool to read the following file:\n- "
    ++ overflowPath

/-- The observable effects of one `_handleSubmit` call: image paths saved, the
overflow text file written (path and contents), and the response fired. -/
structure SubmitEffects where
  savedImages : List String
  overflowWrites : List (String × String)
  response : UserResponse
deriving DecidableEq

/-- `ChatPanelProvider._handleSubmit`: save each image under a name derived
from the per-submission random token, collect per-image failures into a
warning, and either offload oversized text to the overflow file (answering
with the pointer message) or pass the text through behind the warning.
`randomBytes` embeds the `crypto.randomBytes(4)` sample and `imgSaveOk` the
success of each `fs.writeFileSync`. -/
def handleSubmit (tempDir : String) (randomBytes : List Nat) (imgSaveOk : Nat → Bool)
    (text : String) (images : List String) (requestId : Option String) : SubmitEffects :=
  let uniqueId := bytesToHex randomBytes
  let idx := List.range images.length
  let savedImages := (idx.filter (fun i => imgSaveOk i)).map (fun i => imgFilePath tempDir uniqueId i)
  let failedImages := (idx.filter (fun i => !imgSaveOk i)).map (fun i => i + 1)
  let warningPfx := imageWarning failedImages
  if text.length > LONG_TEXT_THRESHOLD then
    { savedImages := savedImages,
      overflowWrites := [(overflowFilePath tempDir uniqueId, text)],
      response := { action := "instruction",
                    text := warningPfx ++ longTextPointer (overflowFilePath tempDir uniqueId),
                    images := savedImages, requestId := requestId } }
  else
    { savedImages := savedImages,
      overflowWrites := [],
      response := { action := "instruction", text := warningPfx ++ text,
                    images := savedImages, requestId := requestId } }

/-- An oversized submission text (501 repetitions of one character). -/
def longTextA : String := String.mk (List.replicate 501 'a')

/-- A different oversized submission text. -/
def longTextB : String := String.mk (List.replicate 501 'b')

/- Association-list (JS `Map`) lemmas. -/

theorem mapGet_delete_self {α : Type} (m : List (String × α)) (k : String) :
    mapGet (mapDelete m k) k = none := by
  induction m with
  | nil => rfl
  | cons e rest ih =>
    obtain ⟨k1, v1⟩ := e
    by_cases h : k1 = k
    · simp [mapDelete, h, ih]
    · simp [mapDelete, mapGet, h, ih]

theorem mapGet_delete_ne {α : Type} (m : List (String × α)) (k k2 : String) (h : k2 ≠ k) :
    mapGet (mapDelete m k) k2 = mapGet m k2 := by
  have h0 : ¬ k = k2 := fun hc => h hc.symm
  induction m with
  | nil => rfl
  | cons e rest ih =>
    obtain ⟨k1, v1⟩ := e
    by_cases h1 : k1 = k
    · have h2 : ¬ k1 = k2 := by
        intro hc
        exact h (hc ▸ h1)
      simp [mapDelete, mapGet, h1, h2, h0, ih]
    · by_cases h2 : k1 = k2
      · simp [mapDelete, mapGet, h1, h2, h0, h, ih]
      · simp [mapDelete, mapGet, h1, h2, h0, ih]

theorem mapDelete_of_get_none {α : Type} (m : List (String × α)) (k : String)
    (h : mapGet m k = none) : mapDelete m k = m := by
  induction m with
  | nil => rfl
  | cons e rest ih =>
    obtain ⟨k1, v1⟩ := e
    by_cases h1 : k1 = k
    · simp [mapGet, h1] at h
    · simp [mapGet, h1] at h
      simp [mapDelete, h1, ih h]

theorem mapGet_set_self {α : Type} (m : List (String × α)) (k : String) (v : α) :
    mapGet (mapSet m k v) k = some v := by
  induction m with
  | nil => simp [mapSet, mapGet]
  | cons e rest ih =>
    obtain ⟨k1, v1⟩ := e
    by_cases h : k1 = k
    · simp [mapSet, mapGet, h]
    · simp [mapSet, mapGet, h, ih]

theorem mapGet_set_ne {α : Type} (m : List (String × α)) (k k2 : String) (v : α) (h : k2 ≠ k) :
    mapGet (mapSet m k v) k2 = mapGet m k2 := by
  have h0 : ¬ k = k2 := fun hc => h hc.symm
  induction m with
  | nil => simp [mapSet, mapGet, h0]
  | cons e rest ih =>
    obtain ⟨k1, v1⟩ := e
    by_cases h1 : k1 = k
    · simp [mapSet, mapGet, h1, h0]
    · by_cases h2 : k1 = k2
      · simp [mapSet, mapGet, h1, h2, h0, h, ih]
      · simp [mapSet, mapGet, h1, h2, h0, ih]

theorem mem_of_mem_mapDelete {α : Type} (m : List (String × α)) (k : String)
    (e : String × α) (h : e ∈ mapDelete m k) : e ∈ m ∧ e.1 ≠ k := by
  induction m with
  | nil => simp [mapDelete] at h
  | cons e1 rest ih =>
    obtain ⟨k1, v1⟩ := e1
    by_cases h1 : k1 = k
    · simp only [mapDelete, if_pos h1] at h
      exact ⟨List.mem_cons_of_mem _ (ih h).1, (ih h).2⟩
    · simp only [mapDelete, if_neg h1] at h
      rcases List.mem_cons.mp h with h2 | h2
      · subst h2
        exact ⟨List.mem_cons_self _ _, h1⟩
      · exact ⟨List.mem_cons_of_mem _ (ih h2).1, (ih h2).2⟩

theorem foldl_mapDelete_nil {α : Type} (ks : List String) :
    ∀ (m : List (String × α)), (∀ e ∈ m, e.1 ∈ ks) → ks.foldl mapDelete m = [] := by
  induction ks with
  | nil =>
    intro m h
    cases m with
    | nil => rfl
    | cons e rest => exact absurd (h e (List.mem_cons_self _ _)) (by simp)
  | cons k ks ih =>
    intro m h
    simp only [List.foldl_cons]
    refine ih (mapDelete m k) ?_
    intro e he
    obtain ⟨hmem, hne⟩ := mem_of_mem_mapDelete m k e he
    rcases List.mem_cons.mp (h e hmem) with h2 | h2
    · exact absurd h2 hne
    · exact h2

/- Decimal and hexadecimal rendering lemmas. -/

theorem digitChar_inj_lt : ∀ a < 16, ∀ b < 16, Nat.digitChar a = Nat.digitChar b → a = b := by
  decide

theorem decimalChars_eq (fuel : Nat) : ∀ n : Nat, n ≤ fuel →
    decimalChars fuel n = ((Nat.digits 10 n).map Nat.digitChar).reverse := by
  induction fuel with
  | zero =>
    intro n h
    have h0 : n = 0 := Nat.le_zero.mp h
    subst h0
    simp [decimalChars]
  | succ f ih =>
    intro n h
    by_cases hn : n = 0
    · subst hn
      simp [decimalChars]
    · have hd : n / 10 ≤ f := by omega
      rw [show decimalChars (f + 1) n
            = if n = 0 then [] else decimalChars f (n / 10) ++ [Nat.digitChar (n % 10)] from rfl,
        if_neg hn, ih _ hd, Nat.digits_def' (by norm_num : (1:Nat) < 10) (Nat.pos_of_ne_zero hn)]
      simp

theorem jsNatToString_data (n : Nat) (hn : n ≠ 0) :
    (jsNatToString n).data = ((Nat.digits 10 n).map Nat.digitChar).reverse := by
  rw [jsNatToString, if_neg hn]
  exact decimalChars_eq (n + 1) n (by omega)

theorem jsNatToString_ne_empty (n : Nat) : jsNatToString n ≠ "" := by
  by_cases hn : n = 0
  · subst hn; decide
  · intro h
    have hd := congrArg String.data h
    rw [jsNatToString_data n hn] at hd
    have : Nat.digits 10 n = [] := by
      have := List.reverse_eq_nil_iff.mp (by simpa using hd)
      simpa using this
    exact (Nat.digits_ne_nil_iff_ne_zero.mpr hn) this

theorem map_digitChar_inj : ∀ (l1 l2 : List Nat), (∀ d ∈ l1, d < 16) → (∀ d ∈ l2, d < 16) →
    l1.map Nat.digitChar = l2.map Nat.digitChar → l1 = l2 := by
  intro l1
  induction l1 with
  | nil =>
    intro l2 h1 h2 h
    cases l2 with
    | nil => rfl
    | cons b t => simp at h
  | cons a t ih =>
    intro l2 h1 h2 h
    cases l2 with
    | nil => simp at h
    | cons b t2 =>
      simp only [List.map_cons, List.cons.injEq] at h
      have ha : a = b :=
        digitChar_inj_lt a (h1 a (List.mem_cons_self _ _)) b (h2 b (List.mem_cons_self _ _)) h.1
      have ht : t = t2 :=
        ih t2 (fun d hd => h1 d (List.mem_cons_of_mem _ hd))
          (fun d hd => h2 d (List.mem_cons_of_mem _ hd)) h.2
      rw [ha, ht]

theorem jsNatToString_ne_zero_str (n : Nat) (hn : n ≠ 0) : jsNatToString n ≠ jsNatToString 0 := by
  intro h
  have hd := congrArg String.data h
  rw [jsNatToString_data n hn] at hd
  have h0 : (jsNatToString 0).data = ['0'] := rfl
  rw [h0] at hd
  have h2 : ((Nat.digits 10 n).map Nat.digitChar).reverse = ['0'] := hd
  have h3 : (Nat.digits 10 n).map Nat.digitChar = ['0'] := by
    have h4 := congrArg List.reverse h2
    simpa using h4
  have h5 : (Nat.digits 10 n).map Nat.digitChar = List.map Nat.digitChar [0] := by
    rw [h3]; rfl
  have h6 : Nat.digits 10 n = [0] :=
    map_digitChar_inj (Nat.digits 10 n) [0]
      (fun d hdm => Nat.lt_trans (Nat.digits_lt_base (by norm_num) hdm) (by norm_num))
      (by intro d hdm; simp at hdm; omega) h5
  have h7 := Nat.ofDigits_digits 10 n
  rw [h6] at h7
  simp [Nat.ofDigits] at h7
  exact hn h7.symm

theorem jsNatToString_inj {m n : Nat} (h : jsNatToString m = jsNatToString n) : m = n := by
  by_cases hm : m = 0 <;> by_cases hn : n = 0
  · omega
  · exact absurd (hm ▸ h).symm (jsNatToString_ne_zero_str n hn)
  · exact absurd (hn ▸ h) (jsNatToString_ne_zero_str m hm)
  · have hd := congrArg String.data h
    rw [jsNatToString_data m hm, jsNatToString_data n hn] at hd
    have h2 := List.reverse_inj.mp hd
    have h3 := map_digitChar_inj (Nat.digits 10 m) (Nat.digits 10 n)
      (fun d hdm => Nat.lt_trans (Nat.digits_lt_base (by norm_num) hdm) (by norm_num))
      (fun d hdm => Nat.lt_trans (Nat.digits_lt_base (by norm_num) hdm) (by norm_num)) h2
    exact Nat.digits_inj_iff.mp h3

theorem byteToHexChars_inj {a b : Nat} (ha : a < 256) (hb : b < 256)
    (h : byteToHexChars a = byteToHexChars b) : a = b := by
  simp only [byteToHexChars, List.cons.injEq, and_true] at h
  have h1 := digitChar_inj_lt (a / 16) (by omega) (b / 16) (by omega) h.1
  have h2 := digitChar_inj_lt (a % 16) (by omega) (b % 16) (by omega) h.2
  omega

theorem hexFlatten_inj : ∀ (l1 l2 : List Nat), l1.length = l2.length →
    (∀ x ∈ l1, x < 256) → (∀ x ∈ l2, x < 256) →
    (l1.map byteToHexChars).flatten = (l2.map byteToHexChars).flatten → l1 = l2 := by
  intro l1
  induction l1 with
  | nil =>
    intro l2 hlen h1 h2 h
    cases l2 with
    | nil => rfl
    | cons b t => simp at hlen
  | cons a t ih =>
    intro l2 hlen h1 h2 h
    cases l2 with
    | nil => simp at hlen
    | cons b t2 =>
      simp only [List.map_cons, List.flatten_cons] at h
      have hlen2 : (byteToHexChars a).length = (byteToHexChars b).length := rfl
      obtain ⟨hh, ht⟩ := List.append_inj h hlen2
      have ha : a = b :=
        byteToHexChars_inj (h1 a (List.mem_cons_self _ _)) (h2 b (List.mem_cons_self _ _)) hh
      have ht2 : t = t2 :=
        ih t2 (by simpa using hlen) (fun x hx => h1 x (List.mem_cons_of_mem _ hx))
          (fun x hx => h2 x (List.mem_cons_of_mem _ hx)) ht
      rw [ha, ht2]

theorem bytesToHex_inj (b1 b2 : List Nat) (hlen : b1.length = b2.length)
    (h1 : ∀ x ∈ b1, x < 256) (h2 : ∀ x ∈ b2, x < 256)
    (h : bytesToHex b1 = bytesToHex b2) : b1 = b2 :=
  hexFlatten_inj b1 b2 hlen h1 h2 (congrArg String.data h)

theorem bytesToHex_length (bs : List Nat) : (bytesToHex bs).length = 2 * bs.length := by
  induction bs with
  | nil => rfl
  | cons a t ih =>
    have h1 : (bytesToHex (a :: t)).length = 2 + (bytesToHex t).length := by
      simp [bytesToHex, String.length, byteToHexChars]
      omega
    simp only [h1, ih, List.length_cons]
    ring

theorem validateRequestId_ne_empty (now : Nat) (f : JsonField) :
    validateRequestId now f ≠ "" := by
  cases f with
  | absent => exact jsNatToString_ne_empty now
  | nonString => exact jsNatToString_ne_empty now
  | str s =>
    by_cases h : jsTrim s = ""
    · simp [validateRequestId, h]
      exact jsNatToString_ne_empty now
    · simp [validateRequestId, h]

theorem validateRequestId_of_blank (now : Nat) (f : JsonField)
    (h : isBlankRequestId f = true) : validateRequestId now f = jsNatToString now := by
  cases f with
  | absent => rfl
  | nonString => rfl
  | str s =>
    have h2 : jsTrim s = "" := by simpa [isBlankRequestId] using h
    simp [validateRequestId, h2]

/- Connection-list helpers. -/

theorem connSingle_fresh : ConnSingle freshConn := by
  constructor
  · intro _; rfl
  · simp [freshConn]

theorem conns_set_self (l : List Conn) (i : Nat) (c x : Conn) (h : l[i]? = some c) :
    (l.set i x)[i]? = some x := by
  have hlt : i < l.length := (List.getElem?_eq_some_iff.mp h).1
  simp [List.getElem?_set_self, hlt, List.getElem?_eq_getElem]

theorem conns_set_frozen (l : List Conn) (i j : Nat) (c cj : Conn) (p : AnswerPayload)
    (hi : l[i]? = some c) (hci : c.writableEnded = true)
    (hj : l[j]? = some cj) (hcj : cj.writableEnded = false) :
    (l.set j (endConn cj p))[i]? = some c := by
  have hij : j ≠ i := by
    intro he
    subst he
    rw [hi] at hj
    cases hj
    rw [hcj] at hci
    cases hci
  rw [List.getElem?_set_ne hij]
  exact hi

theorem conns_set_other (l : List Conn) (i j : Nat) (x : Conn) (h : j ≠ i) :
    (l.set j x)[i]? = l[i]? :=
  List.getElem?_set_ne h

theorem conns_set_inv (l : List Conn) (j : Nat) (cj : Conn) (p : AnswerPayload)
    (hinv : ∀ c ∈ l, ConnSingle c) (hj : l[j]? = some cj) (hcj : cj.writableEnded = false) :
    ∀ c ∈ l.set j (endConn cj p), ConnSingle c := by
  intro c hc
  rcases List.mem_or_eq_of_mem_set hc with h | h
  · exact hinv c h
  · subst h
    have h2 := hinv cj (List.getElem?_mem hj)
    have h3 : cj.written = [] := h2.1 hcj
    constructor
    · intro hfalse
      exact absurd hfalse (by simp [endConn])
    · simp [endConn, h3]

theorem conns_append_frozen (l : List Conn) (x : Conn) (i : Nat) (c : Conn)
    (hi : l[i]? = some c) : (l ++ [x])[i]? = some c := by
  have hlt : i < l.length := (List.getElem?_eq_some_iff.mp hi).1
  rw [List.getElem?_append_left hlt]
  exact hi

theorem conns_append_last (l : List Conn) (x : Conn) : (l ++ [x])[l.length]? = some x := by
  rw [List.getElem?_append_right (Nat.le_refl _)]
  simp

theorem conns_append_inv (l : List Conn) (x : Conn) (hinv : ∀ c ∈ l, ConnSingle c)
    (hx : ConnSingle x) : ∀ c ∈ l ++ [x], ConnSingle c := by
  intro c hc
  rcases List.mem_append.mp hc with h | h
  · exact hinv c h
  · simp at h
    subst h
    exact hx

/- clearPendingRequest lemmas. -/

theorem clear_of_get_none (s : BridgeState) (rid : String) (b : Bool) (d : Option AnswerPayload)
    (h : mapGet s.pendingRequests rid = none) : clearPendingRequest s rid b d = s := by
  unfold clearPendingRequest
  rw [h]

theorem clear_pending (s : BridgeState) (rid : String) (b : Bool) (d : Option AnswerPayload) :
    (clearPendingRequest s rid b d).pendingRequests = mapDelete s.pendingRequests rid := by
  cases hget : mapGet s.pendingRequests rid with
  | none =>
    rw [clear_of_get_none s rid b d hget]
    exact (mapDelete_of_get_none _ _ hget).symm
  | some p =>
    simp only [clearPendingRequest, hget]
    split
    · split
      · split
        · rfl
        · rfl
      · rfl
    · rfl

theorem clear_active (s : BridgeState) (rid : String) (b : Bool) (d : Option AnswerPayload) :
    (clearPendingRequest s rid b d).activeRequestId = s.activeRequestId := by
  cases hget : mapGet s.pendingRequests rid with
  | none => rw [clear_of_get_none s rid b d hget]
  | some p =>
    simp only [clearPendingRequest, hget]
    split
    · split
      · split
        · rfl
        · rfl
      · rfl
    · rfl

theorem clear_conns_nosend (s : BridgeState) (rid : String) (d : Option AnswerPayload) :
    (clearPendingRequest s rid false d).conns = s.conns := by
  cases hget : mapGet s.pendingRequests rid with
  | none => rw [clear_of_get_none s rid false d hget]
  | some p => simp [clearPendingRequest, hget]

theorem clear_conns_sink_missing (s : BridgeState) (rid : String) (b : Bool)
    (d : Option AnswerPayload) (p : PendingEntry) (hget : mapGet s.pendingRequests rid = some p)
    (hc : s.conns[p.resId]? = none) : (clearPendingRequest s rid b d).conns = s.conns := by
  simp only [clearPendingRequest, hget]
  split
  · simp [hc]
  · simp

theorem clear_conns_ended (s : BridgeState) (rid : String) (b : Bool)
    (d : Option AnswerPayload) (p : PendingEntry) (c : Conn)
    (hget : mapGet s.pendingRequests rid = some p) (hc : s.conns[p.resId]? = some c)
    (hend : c.writableEnded = true) : (clearPendingRequest s rid b d).conns = s.conns := by
  simp only [clearPendingRequest, hget]
  split
  · simp [hc, hend]
  · simp

theorem clear_conns_write (s : BridgeState) (rid : String) (d : Option AnswerPayload)
    (p : PendingEntry) (c : Conn)
    (hget : mapGet s.pendingRequests rid = some p) (hc : s.conns[p.resId]? = some c)
    (hend : c.writableEnded = false) :
    (clearPendingRequest s rid true d).conns
      = s.conns.set p.resId
          (endConn c (d.getD (createErrorResponse ERROR_REQUEST_CANCELLED))) := by
  simp [clearPendingRequest, hget, hc, hend]

theorem clear_conns_length (s : BridgeState) (rid : String) (b : Bool)
    (d : Option AnswerPayload) : (clearPendingRequest s rid b d).conns.length = s.conns.length := by
  cases hget : mapGet s.pendingRequests rid with
  | none => rw [clear_of_get_none s rid b d hget]
  | some p =>
    cases b with
    | false => rw [clear_conns_nosend]
    | true =>
      cases hc : s.conns[p.resId]? with
      | none => rw [clear_conns_sink_missing s rid true d p hget hc]
      | some c =>
        cases hend : c.writableEnded with
        | true => rw [clear_conns_ended s rid true d p c hget hc hend]
        | false =>
          rw [clear_conns_write s rid d p c hget hc hend]
          simp

theorem clear_frozen (s : BridgeState) (rid : String) (b : Bool) (d : Option AnswerPayload)
    (i : Nat) (c : Conn) (hi : s.conns[i]? = some c) (hci : c.writableEnded = true) :
    (clearPendingRequest s rid b d).conns[i]? = some c := by
  cases hget : mapGet s.pendingRequests rid with
  | none => rw [clear_of_get_none s rid b d hget]; exact hi
  | some p =>
    cases b with
    | false => rw [clear_conns_nosend]; exact hi
    | true =>
      cases hc : s.conns[p.resId]? with
      | none => rw [clear_conns_sink_missing s rid true d p hget hc]; exact hi
      | some cp =>
        cases hend : cp.writableEnded with
        | true => rw [clear_conns_ended s rid true d p cp hget hc hend]; exact hi
        | false =>
          rw [clear_conns_write s rid d p cp hget hc hend]
          exact conns_set_frozen _ _ _ _ _ _ hi hci hc hend

theorem clear_inv (s : BridgeState) (rid : String) (b : Bool) (d : Option AnswerPayload)
    (hinv : StateInv s) : StateInv (clearPendingRequest s rid b d) := by
  cases hget : mapGet s.pendingRequests rid with
  | none => rw [clear_of_get_none s rid b d hget]; exact hinv
  | some p =>
    intro c hc
    cases b with
    | false =>
      rw [clear_conns_nosend] at hc
      exact hinv c hc
    | true =>
      cases hcp : s.conns[p.resId]? with
      | none =>
        rw [clear_conns_sink_missing s rid true d p hget hcp] at hc
        exact hinv c hc
      | some cp =>
        cases hend : cp.writableEnded with
        | true =>
          rw [clear_conns_ended s rid true d p cp hget hcp hend] at hc
          exact hinv c hc
        | false =>
          rw [clear_conns_write s rid d p cp hget hcp hend] at hc
          exact conns_set_inv _ _ _ _ hinv hcp hend c hc

/- registerRequest lemmas. -/

theorem register_conns (s : BridgeState) (f : JsonField) (tm : Option Int) (now : Nat) :
    (registerRequest s f tm now).conns
      = (clearPendingRequest s (validateRequestId now f) true
          (some (createErrorResponse ERROR_REQUEST_SUPERSEDED))).conns ++ [freshConn] := rfl

theorem register_active (s : BridgeState) (f : JsonField) (tm : Option Int) (now : Nat) :
    (registerRequest s f tm now).activeRequestId = some (validateRequestId now f) := rfl

theorem clear_server (s : BridgeState) (rid : String) (b : Bool) (d : Option AnswerPayload) :
    (clearPendingRequest s rid b d).serverOpen = s.serverOpen := by
  cases hget : mapGet s.pendingRequests rid with
  | none => rw [clear_of_get_none s rid b d hget]
  | some p =>
    simp only [clearPendingRequest, hget]
    split
    · split
      · split
        · rfl
        · rfl
      · rfl
    · rfl

theorem register_server (s : BridgeState) (f : JsonField) (tm : Option Int) (now : Nat) :
    (registerRequest s f tm now).serverOpen = s.serverOpen := by
  have h := clear_server s (validateRequestId now f) true
    (some (createErrorResponse ERROR_REQUEST_SUPERSEDED))
  simpa [registerRequest] using h

theorem register_pending_get (s : BridgeState) (f : JsonField) (tm : Option Int) (now : Nat) :
    mapGet (registerRequest s f tm now).pendingRequests (validateRequestId now f)
      = some { resId := s.conns.length,
               timer := if effectiveTimeoutMs tm > 0 then some (effectiveTimeoutMs tm) else none } := by
  have hlen : (clearPendingRequest s (validateRequestId now f) true
      (some (createErrorResponse ERROR_REQUEST_SUPERSEDED))).conns.length = s.conns.length :=
    clear_conns_length _ _ _ _
  simp only [registerRequest, mapGet_set_self, hlen]

theorem register_pending (s : BridgeState) (f : JsonField) (tm : Option Int) (now : Nat) :
    (registerRequest s f tm now).pendingRequests
      = mapSet (mapDelete s.pendingRequests (validateRequestId now f)) (validateRequestId now f)
          { resId := s.conns.length,
            timer := if effectiveTimeoutMs tm > 0 then some (effectiveTimeoutMs tm) else none } := by
  have hlen : (clearPendingRequest s (validateRequestId now f) true
      (some (createErrorResponse ERROR_REQUEST_SUPERSEDED))).conns.length = s.conns.length :=
    clear_conns_length _ _ _ _
  simp only [registerRequest, clear_pending, hlen]

theorem register_fresh (s : BridgeState) (f : JsonField) (tm : Option Int) (now : Nat) :
    (registerRequest s f tm now).conns[s.conns.length]? = some freshConn := by
  rw [register_conns]
  have hlen : (clearPendingRequest s (validateRequestId now f) true
      (some (createErrorResponse ERROR_REQUEST_SUPERSEDED))).conns.length = s.conns.length :=
    clear_conns_length _ _ _ _
  rw [← hlen]
  exact conns_append_last _ _

theorem register_superseded_write (s : BridgeState) (f : JsonField) (tm : Option Int) (now : Nat)
    (p : PendingEntry) (c : Conn)
    (hget : mapGet s.pendingRequests (validateRequestId now f) = some p)
    (hc : s.conns[p.resId]? = some c) (hend : c.writableEnded = false) :
    (registerRequest s f tm now).conns[p.resId]?
      = some (endConn c (createErrorResponse ERROR_REQUEST_SUPERSEDED)) := by
  rw [register_conns]
  have hw := clear_conns_write s (validateRequestId now f)
    (some (createErrorResponse ERROR_REQUEST_SUPERSEDED)) p c hget hc hend
  rw [hw]
  apply conns_append_frozen
  simpa using conns_set_self s.conns p.resId c _ hc

theorem register_frozen (s : BridgeState) (f : JsonField) (tm : Option Int) (now : Nat)
    (i : Nat) (c : Conn) (hi : s.conns[i]? = some c) (hci : c.writableEnded = true) :
    (registerRequest s f tm now).conns[i]? = some c := by
  rw [register_conns]
  exact conns_append_frozen _ _ _ _ (clear_frozen _ _ _ _ _ _ hi hci)

theorem register_inv (s : BridgeState) (f : JsonField) (tm : Option Int) (now : Nat)
    (hinv : StateInv s) : StateInv (registerRequest s f tm now) := by
  intro c hc
  rw [register_conns] at hc
  exact conns_append_inv _ _ (clear_inv _ _ _ _ hinv) connSingle_fresh c hc

/- fireTimer lemmas. -/

theorem fire_of_get_none (s : BridgeState) (rid : String)
    (h : mapGet s.pendingRequests rid = none) : fireTimer s rid = s := by
  unfold fireTimer
  rw [h]

theorem fire_of_sink_missing (s : BridgeState) (rid : String) (p : PendingEntry)
    (hget : mapGet s.pendingRequests rid = some p) (hc : s.conns[p.resId]? = none) :
    fireTimer s rid = s := by
  simp [fireTimer, hget, hc]

theorem fire_of_ended (s : BridgeState) (rid : String) (p : PendingEntry) (c : Conn)
    (hget : mapGet s.pendingRequests rid = some p) (hc : s.conns[p.resId]? = some c)
    (hend : c.writableEnded = true) : fireTimer s rid = s := by
  simp [fireTimer, hget, hc, hend]

theorem fire_writes (s : BridgeState) (rid : String) (p : PendingEntry) (c : Conn)
    (hget : mapGet s.pendingRequests rid = some p) (hc : s.conns[p.resId]? = some c)
    (hend : c.writableEnded = false) :
    (fireTimer s rid).conns = s.conns.set p.resId (endConn c (createErrorResponse ERROR_REQUEST_TIMEOUT))
    ∧ (fireTimer s rid).pendingRequests = mapDelete s.pendingRequests rid := by
  simp [fireTimer, hget, hc, hend]

theorem fire_frozen (s : BridgeState) (rid : String) (i : Nat) (c : Conn)
    (hi : s.conns[i]? = some c) (hci : c.writableEnded = true) :
    (fireTimer s rid).conns[i]? = some c := by
  cases hget : mapGet s.pendingRequests rid with
  | none => rw [fire_of_get_none s rid hget]; exact hi
  | some p =>
    cases hc : s.conns[p.resId]? with
    | none => rw [fire_of_sink_missing s rid p hget hc]; exact hi
    | some cp =>
      cases hend : cp.writableEnded with
      | true => rw [fire_of_ended s rid p cp hget hc hend]; exact hi
      | false =>
        rw [(fire_writes s rid p cp hget hc hend).1]
        exact conns_set_frozen _ _ _ _ _ _ hi hci hc hend

theorem fire_inv (s : BridgeState) (rid : String) (hinv : StateInv s) :
    StateInv (fireTimer s rid) := by
  cases hget : mapGet s.pendingRequests rid with
  | none => rw [fire_of_get_none s rid hget]; exact hinv
  | some p =>
    cases hc : s.conns[p.resId]? with
    | none => rw [fire_of_sink_missing s rid p hget hc]; exact hinv
    | some cp =>
      cases hend : cp.writableEnded with
      | true => rw [fire_of_ended s rid p cp hget hc hend]; exact hinv
      | false =>
        intro c hcmem
        rw [(fire_writes s rid p cp hget hc hend).1] at hcmem
        exact conns_set_inv _ _ _ _ hinv hc hend c hcmem

/- sendResponse lemmas. -/

theorem send_of_target_none (s : BridgeState) (r : AnswerPayload) (rid0 : Option String)
    (h : jsOrElse rid0 s.activeRequestId = none) : sendResponse s r rid0 = s := by
  simp [sendResponse, h]

theorem send_of_target_empty (s : BridgeState) (r : AnswerPayload) (rid0 : Option String)
    (h : jsOrElse rid0 s.activeRequestId = some "") : sendResponse s r rid0 = s := by
  simp [sendResponse, h]

theorem send_of_get_none (s : BridgeState) (r : AnswerPayload) (rid0 : Option String)
    (rid : String) (hj : jsOrElse rid0 s.activeRequestId = some rid) (hrid : rid ≠ "")
    (hget : mapGet s.pendingRequests rid = none) : sendResponse s r rid0 = s := by
  simp [sendResponse, hj, hrid, hget]

theorem send_writes (s : BridgeState) (r : AnswerPayload) (rid0 : Option String)
    (rid : String) (p : PendingEntry) (c : Conn)
    (hj : jsOrElse rid0 s.activeRequestId = some rid) (hrid : rid ≠ "")
    (hget : mapGet s.pendingRequests rid = some p)
    (hc : s.conns[p.resId]? = some c) (hend : c.writableEnded = false) :
    (sendResponse s r rid0).conns = s.conns.set p.resId (endConn c r)
    ∧ (sendResponse s r rid0).pendingRequests = mapDelete s.pendingRequests rid := by
  simp only [sendResponse, hj, if_neg hrid, hget, hc, hend, Bool.false_eq_true, if_false]
  constructor
  · split
    · rw [clear_conns_nosend]
    · rw [clear_conns_nosend]
  · split
    · rw [clear_pending]
    · rw [clear_pending]

theorem send_conns_cases (s : BridgeState) (r : AnswerPayload) (rid0 : Option String) :
    (sendResponse s r rid0).conns = s.conns
    ∨ ∃ rid p c, jsOrElse rid0 s.activeRequestId = some rid ∧ rid ≠ ""
        ∧ mapGet s.pendingRequests rid = some p ∧ s.conns[p.resId]? = some c
        ∧ c.writableEnded = false
        ∧ (sendResponse s r rid0).conns = s.conns.set p.resId (endConn c r) := by
  cases hj : jsOrElse rid0 s.activeRequestId with
  | none => left; rw [send_of_target_none s r rid0 hj]
  | some rid =>
    by_cases hrid : rid = ""
    · left
      subst hrid
      rw [send_of_target_empty s r rid0 hj]
    · cases hget : mapGet s.pendingRequests rid with
      | none => left; rw [send_of_get_none s r rid0 rid hj hrid hget]
      | some p =>
        cases hc : s.conns[p.resId]? with
        | none =>
          left
          simp only [sendResponse, hj, if_neg hrid, hget, hc]
          split
          · rw [clear_conns_nosend]
          · rw [clear_conns_nosend]
        | some c =>
          cases hend : c.writableEnded with
          | true =>
            left
            simp only [sendResponse, hj, if_neg hrid, hget, hc, hend]
            rw [if_pos trivial]
            split
            · rw [clear_conns_nosend]
            · rw [clear_conns_nosend]
          | false =>
            right
            exact ⟨rid, p, c, rfl, hrid, hget, hc, hend,
              (send_writes s r rid0 rid p c hj hrid hget hc hend).1⟩

theorem send_frozen (s : BridgeState) (r : AnswerPayload) (rid0 : Option String)
    (i : Nat) (c : Conn) (hi : s.conns[i]? = some c) (hci : c.writableEnded = true) :
    (sendResponse s r rid0).conns[i]? = some c := by
  rcases send_conns_cases s r rid0 with h | ⟨rid, p, cp, _, _, _, hc, hend, h⟩
  · rw [h]; exact hi
  · rw [h]
    exact conns_set_frozen _ _ _ _ _ _ hi hci hc hend

theorem send_inv (s : BridgeState) (r : AnswerPayload) (rid0 : Option String)
    (hinv : StateInv s) : StateInv (sendResponse s r rid0) := by
  rcases send_conns_cases s r rid0 with h | ⟨rid, p, cp, _, _, _, hc, hend, h⟩
  · intro c hcm; rw [h] at hcm; exact hinv c hcm
  · intro c hcm
    rw [h] at hcm
    exact conns_set_inv _ _ _ _ hinv hc hend c hcm

/- dispose and drainPending lemmas. -/

theorem drain_pending (ks : List String) :
    ∀ s : BridgeState, (drainPending ks s).pendingRequests = ks.foldl mapDelete s.pendingRequests := by
  induction ks with
  | nil => intro s; rfl
  | cons k ks ih =>
    intro s
    simp only [drainPending, List.foldl_cons]
    rw [show (List.foldl shutdownClear (shutdownClear s k) ks) = drainPending ks (shutdownClear s k) from rfl,
      ih (shutdownClear s k), shutdownClear, clear_pending]

theorem drain_frozen (ks : List String) :
    ∀ (s : BridgeState) (i : Nat) (c : Conn), s.conns[i]? = some c → c.writableEnded = true →
      (drainPending ks s).conns[i]? = some c := by
  induction ks with
  | nil => intro s i c hi _; exact hi
  | cons k ks ih =>
    intro s i c hi hci
    simp only [drainPending, List.foldl_cons]
    exact ih (shutdownClear s k) i c (clear_frozen _ _ _ _ _ _ hi hci) hci

theorem drain_inv (ks : List String) :
    ∀ s : BridgeState, StateInv s → StateInv (drainPending ks s) := by
  induction ks with
  | nil => intro s h; exact h
  | cons k ks ih =>
    intro s h
    exact ih (shutdownClear s k) (clear_inv _ _ _ _ h)

theorem drain_writes (ks : List String) :
    ∀ (s : BridgeState) (rid : String) (p : PendingEntry) (c : Conn), rid ∈ ks →
      mapGet s.pendingRequests rid = some p → s.conns[p.resId]? = some c →
      c.writableEnded = false →
      (drainPending ks s).conns[p.resId]?
        = some (endConn c (createErrorResponse ERROR_EXTENSION_DEACTIVATED)) := by
  induction ks with
  | nil => intro s rid p c hk; exact absurd hk (List.not_mem_nil _)
  | cons k ks ih =>
    intro s rid p c hk hget hc hend
    simp only [drainPending, List.foldl_cons]
    by_cases hkr : rid = k
    · subst hkr
      have hw := clear_conns_write s rid (some (createErrorResponse ERROR_EXTENSION_DEACTIVATED))
        p c hget hc hend
      have h1 : (shutdownClear s rid).conns[p.resId]?
          = some (endConn c (createErrorResponse ERROR_EXTENSION_DEACTIVATED)) := by
        rw [shutdownClear, hw]
        simpa using conns_set_self s.conns p.resId c _ hc
      exact drain_frozen ks (shutdownClear s rid) p.resId _ h1 rfl
    · cases hgk : mapGet s.pendingRequests k with
      | none =>
        rw [show shutdownClear s k = s from clear_of_get_none s k true _ hgk]
        exact ih s rid p c (by simpa [hkr] using hk) hget hc hend
      | some q =>
        have hpend : (shutdownClear s k).pendingRequests = mapDelete s.pendingRequests k := by
          rw [shutdownClear, clear_pending]
        have hget2 : mapGet (shutdownClear s k).pendingRequests rid = some p := by
          rw [hpend, mapGet_delete_ne _ _ _ hkr, hget]
        cases hcq : s.conns[q.resId]? with
        | none =>
          have hcs : (shutdownClear s k).conns = s.conns :=
            clear_conns_sink_missing s k true _ q hgk hcq
          exact ih (shutdownClear s k) rid p c (by simpa [hkr] using hk) hget2
            (by rw [hcs]; exact hc) hend
        | some cq =>
          cases hendq : cq.writableEnded with
          | true =>
            have hcs : (shutdownClear s k).conns = s.conns :=
              clear_conns_ended s k true _ q cq hgk hcq hendq
            exact ih (shutdownClear s k) rid p c (by simpa [hkr] using hk) hget2
              (by rw [hcs]; exact hc) hend
          | false =>
            have hcs : (shutdownClear s k).conns
                = s.conns.set q.resId (endConn cq (createErrorResponse ERROR_EXTENSION_DEACTIVATED)) := by
              have := clear_conns_write s k (some (createErrorResponse ERROR_EXTENSION_DEACTIVATED))
                q cq hgk hcq hendq
              rw [shutdownClear, this]
              rfl
            by_cases hqi : q.resId = p.resId
            · have hceq : cq = c := by
                rw [hqi] at hcq
                rw [hcq] at hc
                cases hc
                rfl
              have h1 : (shutdownClear s k).conns[p.resId]?
                  = some (endConn c (createErrorResponse ERROR_EXTENSION_DEACTIVATED)) := by
                rw [hcs, hqi, hceq]
                simpa using conns_set_self s.conns p.resId c _ hc
              exact drain_frozen ks (shutdownClear s k) p.resId _ h1 rfl
            · have h1 : (shutdownClear s k).conns[p.resId]? = some c := by
                rw [hcs, conns_set_other _ _ _ _ hqi]
                exact hc
              exact ih (shutdownClear s k) rid p c (by simpa [hkr] using hk) hget2 h1 hend

theorem dispose_pending (s : BridgeState) : (dispose s).pendingRequests = [] := by
  simp only [dispose, drain_pending]
  exact foldl_mapDelete_nil (mapKeys s.pendingRequests) s.pendingRequests
    (fun e he => List.mem_map.mpr ⟨e, he, rfl⟩)

theorem dispose_server (s : BridgeState) : (dispose s).serverOpen = false := rfl

theorem mapGet_some_mem_keys {α : Type} (m : List (String × α)) (k : String) (v : α)
    (h : mapGet m k = some v) : k ∈ mapKeys m := by
  induction m with
  | nil => simp [mapGet] at h
  | cons e rest ih =>
    obtain ⟨k1, v1⟩ := e
    by_cases h1 : k1 = k
    · simp [mapKeys, h1]
    · simp only [mapGet, if_neg h1] at h
      simp only [mapKeys, List.map_cons, List.mem_cons]
      right
      exact ih h

theorem dispose_conns_writes (s : BridgeState) (rid : String) (p : PendingEntry) (c : Conn)
    (hget : mapGet s.pendingRequests rid = some p) (hc : s.conns[p.resId]? = some c)
    (hend : c.writableEnded = false) :
    (dispose s).conns[p.resId]?
      = some (endConn c (createErrorResponse ERROR_EXTENSION_DEACTIVATED)) :=
  drain_writes (mapKeys s.pendingRequests) s rid p c
    (mapGet_some_mem_keys _ _ _ hget) hget hc hend

theorem dispose_frozen (s : BridgeState) (i : Nat) (c : Conn)
    (hi : s.conns[i]? = some c) (hci : c.writableEnded = true) :
    (dispose s).conns[i]? = some c :=
  drain_frozen (mapKeys s.pendingRequests) s i c hi hci

theorem dispose_inv (s : BridgeState) (hinv : StateInv s) : StateInv (dispose s) := by
  intro c hc
  exact drain_inv (mapKeys s.pendingRequests) s hinv c hc

/- step / steps lemmas. -/

theorem step_register (s : BridgeState) (f : JsonField) (tm : Option Int) (now : Nat) :
    step s (.register f tm now) = registerRequest s f tm now := rfl

theorem step_answer (s : BridgeState) (r : AnswerPayload) (rid0 : Option String) :
    step s (.answer r rid0) = sendResponse s r rid0 := rfl

theorem step_shutdown (s : BridgeState) : step s .shutdown = dispose s := rfl

theorem step_timer_no_entry (s : BridgeState) (rid : String)
    (h : mapGet s.pendingRequests rid = none) : step s (.timerFires rid) = s := by
  simp [step, h]

theorem step_timer_unarmed (s : BridgeState) (rid : String) (p : PendingEntry)
    (h : mapGet s.pendingRequests rid = some p) (ht : p.timer = none) :
    step s (.timerFires rid) = s := by
  simp [step, h, ht]

theorem step_timer_armed (s : BridgeState) (rid : String) (p : PendingEntry)
    (h : mapGet s.pendingRequests rid = some p) (ht : p.timer.isSome = true) :
    step s (.timerFires rid) = fireTimer s rid := by
  simp [step, h, ht]

theorem step_frozen (s : BridgeState) (e : Event) (i : Nat) (c : Conn)
    (hi : s.conns[i]? = some c) (hci : c.writableEnded = true) :
    (step s e).conns[i]? = some c := by
  cases e with
  | register f tm now => exact register_frozen s f tm now i c hi hci
  | answer r rid0 => exact send_frozen s r rid0 i c hi hci
  | shutdown => exact dispose_frozen s i c hi hci
  | timerFires rid =>
    cases hget : mapGet s.pendingRequests rid with
    | none => rw [step_timer_no_entry s rid hget]; exact hi
    | some p =>
      cases ht : p.timer with
      | none => rw [step_timer_unarmed s rid p hget ht]; exact hi
      | some d =>
        rw [step_timer_armed s rid p hget (by simp [ht])]
        exact fire_frozen s rid i c hi hci

theorem step_inv (s : BridgeState) (e : Event) (hinv : StateInv s) : StateInv (step s e) := by
  cases e with
  | register f tm now => exact register_inv s f tm now hinv
  | answer r rid0 => exact send_inv s r rid0 hinv
  | shutdown => exact dispose_inv s hinv
  | timerFires rid =>
    cases hget : mapGet s.pendingRequests rid with
    | none => rw [step_timer_no_entry s rid hget]; exact hinv
    | some p =>
      cases ht : p.timer with
      | none => rw [step_timer_unarmed s rid p hget ht]; exact hinv
      | some d =>
        rw [step_timer_armed s rid p hget (by simp [ht])]
        exact fire_inv s rid hinv

theorem steps_frozen (l : List Event) :
    ∀ (s : BridgeState) (i : Nat) (c : Conn), s.conns[i]? = some c → c.writableEnded = true →
      (steps s l).conns[i]? = some c := by
  induction l with
  | nil => intro s i c hi _; exact hi
  | cons e l ih =>
    intro s i c hi hci
    exact ih (step s e) i c (step_frozen s e i c hi hci) hci

theorem steps_inv (l : List Event) :
    ∀ s : BridgeState, StateInv s → StateInv (steps s l) := by
  induction l with
  | nil => intro s h; exact h
  | cons e l ih =>
    intro s h
    exact ih (step s e) (step_inv s e h)

/-- Claim C1: across any sequence of resolution events (answer via
`sendResponse`, armed timer firing, supersession by a later registration,
dispose), every connection receives at most one terminal payload
(`StateInv` is preserved from any state satisfying it), a connection whose
sink is already terminated is never written again — even when the ledger
still holds a stale entry pointing at it, so idempotence is decided by
`writableEnded` and not by ledger bookkeeping — and an answer resolving a
pending unresolved request writes exactly one payload, which no later event
sequence can change. -/
theorem c1_single_resolution (s : BridgeState) (l : List Event) (hinv : StateInv s) :
    StateInv (steps s l)
    ∧ (∀ (i : Nat) (c : Conn), s.conns[i]? = some c → c.writableEnded = true →
        (steps s l).conns[i]? = some c)
    ∧ (∀ (resp : AnswerPayload) (rid0 : Option String) (rid : String) (p : PendingEntry)
        (c : Conn) (l2 : List Event),
        jsOrElse rid0 s.activeRequestId = some rid → rid ≠ "" →
        mapGet s.pendingRequests rid = some p → s.conns[p.resId]? = some c →
        c.writableEnded = false →
        (steps (sendResponse s resp rid0) l2).conns[p.resId]?
          = some { writableEnded := true, written := [resp] }) := by
  refine ⟨steps_inv l s hinv, fun i c hi hci => steps_frozen l s i c hi hci, ?_⟩
  intro resp rid0 rid p c l2 hj hrid hget hc hend
  have hw := (send_writes s resp rid0 rid p c hj hrid hget hc hend).1
  have hempty : c.written = [] := (hinv c (List.getElem?_mem hc)).1 hend
  have h1 : (sendResponse s resp rid0).conns[p.resId]? = some (endConn c resp) := by
    rw [hw]
    exact conns_set_self _ _ _ _ hc
  have h2 : endConn c resp = { writableEnded := true, written := [resp] } := by
    simp [endConn, hempty]
  rw [h2] at h1
  exact steps_frozen l2 _ _ _ h1 rfl

theorem c1_single_resolution_witness :
    (steps { conns := [{ writableEnded := true,
                         written := [createErrorResponse ERROR_REQUEST_TIMEOUT] }],
             pendingRequests := [("r", { resId := 0, timer := some 60000 })],
             activeRequestId := some "r", serverOpen := true }
        [.answer (createErrorResponse ERROR_REQUEST_CANCELLED) (some "r"),
         .timerFires "r", .shutdown]).conns[0]?
      = some { writableEnded := true, written := [createErrorResponse ERROR_REQUEST_TIMEOUT] } :=
  (c1_single_resolution _ _ (by decide)).2.1 0 _ rfl rfl

/-- Claim C2: a validated registration whose resolved identifier equals that of
a still-pending request first resolves the earlier request with the superseded
error answer (action error, empty text and images), then registers the new
request under the same identifier with a fresh sink; a subsequent answer is
delivered to the new sink. -/
theorem c2_supersession (s : BridgeState) (f : JsonField) (tm : Option Int) (now : Nat)
    (rid : String) (p : PendingEntry) (c : Conn) (ans : AnswerPayload)
    (hinv : StateInv s)
    (hrid : validateRequestId now f = rid)
    (hget : mapGet s.pendingRequests rid = some p)
    (hc : s.conns[p.resId]? = some c)
    (hend : c.writableEnded = false) :
    (registerRequest s f tm now).conns[p.resId]?
      = some { writableEnded := true,
               written := [createErrorResponse ERROR_REQUEST_SUPERSEDED] }
    ∧ (∃ q, mapGet (registerRequest s f tm now).pendingRequests rid = some q
        ∧ q.resId = s.conns.length ∧ q.resId ≠ p.resId)
    ∧ (registerRequest s f tm now).conns[s.conns.length]? = some freshConn
    ∧ (sendResponse (registerRequest s f tm now) ans none).conns[s.conns.length]?
        = some { writableEnded := true, written := [ans] } := by
  have hempty : c.written = [] := (hinv c (List.getElem?_mem hc)).1 hend
  have hget0 : mapGet s.pendingRequests (validateRequestId now f) = some p := by
    rw [hrid]; exact hget
  have hplt : p.resId < s.conns.length := (List.getElem?_eq_some_iff.mp hc).1
  have hw : (registerRequest s f tm now).conns[p.resId]?
      = some (endConn c (createErrorResponse ERROR_REQUEST_SUPERSEDED)) :=
    register_superseded_write s f tm now p c hget0 hc hend
  refine ⟨?_, ?_, register_fresh s f tm now, ?_⟩
  · rw [hw]
    simp [endConn, hempty]
  · refine ⟨_, by rw [← hrid]; exact register_pending_get s f tm now, rfl, ?_⟩
    simp only
    omega
  · have hactive : (registerRequest s f tm now).activeRequestId = some rid := by
      rw [register_active, hrid]
    have hj : jsOrElse none (registerRequest s f tm now).activeRequestId = some rid := by
      simp [jsOrElse, hactive]
    have hrne : rid ≠ "" := by
      rw [← hrid]; exact validateRequestId_ne_empty now f
    have hget2 : mapGet (registerRequest s f tm now).pendingRequests rid
        = some { resId := s.conns.length,
                 timer := if effectiveTimeoutMs tm > 0 then some (effectiveTimeoutMs tm) else none } := by
      rw [← hrid]; exact register_pending_get s f tm now
    have hcfresh : (registerRequest s f tm now).conns[s.conns.length]? = some freshConn :=
      register_fresh s f tm now
    have hw2 := (send_writes (registerRequest s f tm now) ans none rid _ freshConn
      hj hrne hget2 hcfresh rfl).1
    rw [hw2]
    have := conns_set_self (registerRequest s f tm now).conns s.conns.length freshConn
      (endConn freshConn ans) hcfresh
    rw [this]
    simp [endConn, freshConn]

theorem c2_supersession_witness :
    let s0 : BridgeState :=
      { conns := [freshConn], pendingRequests := [("r", { resId := 0, timer := none })],
        activeRequestId := some "r", serverOpen := true }
    let ansB : AnswerPayload :=
      { action := "instruction", error := none, text := "B answer", images := [] }
    (registerRequest s0 (.str "r") (some 5) 1000).conns[0]?
      = some { writableEnded := true,
               written := [createErrorResponse ERROR_REQUEST_SUPERSEDED] }
    ∧ (sendResponse (registerRequest s0 (.str "r") (some 5) 1000) ansB none).conns[1]?
      = some { writableEnded := true, written := [ansB] } := by
  intro s0 ansB
  have h := c2_supersession s0 (.str "r") (some 5) 1000 "r"
    { resId := 0, timer := none } freshConn ansB
    (by decide) (by decide) rfl rfl rfl
  exact ⟨h.1, h.2.2.2⟩

/-- Claim C3: the effective timeout is the caller-supplied `timeoutMinutes`
when present and the configured default otherwise; zero means unbounded — a
registration with `timeoutMinutes = 0` arms no timer so the timer event cannot
resolve it — while a positive effective timeout arms a timer whose firing on a
still-pending, unterminated request writes the timeout error answer and drops
the entry. -/
theorem c3_timeout_policy (s : BridgeState) (f : JsonField) (now : Nat) (rid : String)
    (p : PendingEntry) (c : Conn) (m : Int) :
    effectiveTimeoutMs (some 0) = 0
    ∧ effectiveTimeoutMs none = DEFAULT_REQUEST_TIMEOUT_MS
    ∧ (0 < m → effectiveTimeoutMs (some m) = m * 60 * 1000)
    ∧ (∀ tm : Option Int,
        mapGet (registerRequest s f tm now).pendingRequests (validateRequestId now f)
          = some { resId := s.conns.length,
                   timer := if effectiveTimeoutMs tm > 0 then some (effectiveTimeoutMs tm)
                            else none })
    ∧ (mapGet (registerRequest s f (some 0) now).pendingRequests (validateRequestId now f)
        = some { resId := s.conns.length, timer := none })
    ∧ (mapGet s.pendingRequests rid = some p → p.timer = none →
        step s (.timerFires rid) = s)
    ∧ (mapGet s.pendingRequests rid = some p → p.timer.isSome = true →
        s.conns[p.resId]? = some c → c.writableEnded = false →
        (step s (.timerFires rid)).conns[p.resId]?
          = some (endConn c (createErrorResponse ERROR_REQUEST_TIMEOUT))
        ∧ mapGet (step s (.timerFires rid)).pendingRequests rid = none) := by
  refine ⟨rfl, by decide, ?_, fun tm => register_pending_get s f tm now, ?_, ?_, ?_⟩
  · intro hm
    have hne : m ≠ 0 := by omega
    simp [effectiveTimeoutMs, hne]
  · have h := register_pending_get s f (some 0) now
    simpa [effectiveTimeoutMs] using h
  · intro hget ht
    exact step_timer_unarmed s rid p hget ht
  · intro hget ht hc hend
    rw [step_timer_armed s rid p hget ht]
    have hw := fire_writes s rid p c hget hc hend
    constructor
    · rw [hw.1]
      exact conns_set_self _ _ _ _ hc
    · rw [hw.2]
      exact mapGet_delete_self _ _

theorem c3_timeout_policy_witness :
    let s1 : BridgeState := registerRequest initState (.str "r") (some 5) 1000
    mapGet s1.pendingRequests "r" = some { resId := 0, timer := some 300000 }
    ∧ step initState (.timerFires "r") = initState
    ∧ (step s1 (.timerFires "r")).conns[0]?
        = some (endConn freshConn (createErrorResponse ERROR_REQUEST_TIMEOUT))
    ∧ mapGet (registerRequest initState (.str "z") (some 0) 1000).pendingRequests "z"
        = some { resId := 0, timer := none }
    ∧ step (registerRequest initState (.str "z") (some 0) 1000) (.timerFires "z")
        = registerRequest initState (.str "z") (some 0) 1000 := by
  intro s1
  refine ⟨by decide, by decide, ?_, ?_, ?_⟩
  · exact ((c3_timeout_policy s1 (.str "r") 1000 "r" { resId := 0, timer := some 300000 }
      freshConn 1).2.2.2.2.2.2 (by decide) rfl rfl rfl).1
  · exact (c3_timeout_policy initState (.str "z") 1000 "z"
      { resId := 0, timer := none } freshConn 1).2.2.2.2.1
  · exact (c3_timeout_policy (registerRequest initState (.str "z") (some 0) 1000) (.str "z") 1000
      "z" { resId := 0, timer := none } freshConn 1).2.2.2.2.2.1 (by decide) rfl

/-- Claim C5: dispose resolves every still-pending request whose sink is not
yet terminated with the shutdown (deactivation) error answer, leaves zero
pending entries, and performs the draining before marking the listening server
closed (dispose is literally the drain followed by the close). -/
theorem c5_dispose_drains (s : BridgeState) :
    (dispose s).pendingRequests = []
    ∧ (dispose s).serverOpen = false
    ∧ dispose s = { drainPending (mapKeys s.pendingRequests) s with serverOpen := false }
    ∧ (∀ (rid : String) (p : PendingEntry) (c : Conn),
        mapGet s.pendingRequests rid = some p → s.conns[p.resId]? = some c →
        c.writableEnded = false →
        (dispose s).conns[p.resId]?
          = some (endConn c (createErrorResponse ERROR_EXTENSION_DEACTIVATED))) :=
  ⟨dispose_pending s, dispose_server s, rfl,
    fun rid p c hget hc hend => dispose_conns_writes s rid p c hget hc hend⟩

theorem c5_dispose_drains_witness :
    let s0 : BridgeState :=
      { conns := [freshConn, freshConn],
        pendingRequests := [("r1", { resId := 0, timer := none }),
                            ("r2", { resId := 1, timer := some 60000 })],
        activeRequestId := some "r2", serverOpen := true }
    (dispose s0).pendingRequests = []
    ∧ (dispose s0).serverOpen = false
    ∧ (dispose s0).conns[0]?
        = some (endConn freshConn (createErrorResponse ERROR_EXTENSION_DEACTIVATED))
    ∧ (dispose s0).conns[1]?
        = some (endConn freshConn (createErrorResponse ERROR_EXTENSION_DEACTIVATED)) := by
  intro s0
  refine ⟨(c5_dispose_drains s0).1, (c5_dispose_drains s0).2.1, ?_, ?_⟩
  · exact (c5_dispose_drains s0).2.2.2 "r1" { resId := 0, timer := none } freshConn rfl rfl rfl
  · exact (c5_dispose_drains s0).2.2.2 "r2" { resId := 1, timer := some 60000 } freshConn
      (by decide) rfl rfl

/-- Claim C10 (amended): `sendResponse` is a complete no-op exactly when the
effective target misses the ledger, where the effective target is the explicit
`requestId` when it is a non-empty string and otherwise — including for an
explicit empty string, which is falsy in JS — the `activeRequestId` fallback. -/
theorem c10_no_op_when_target_missing (s : BridgeState) (resp : AnswerPayload)
    (rid0 : Option String)
    (h : ∀ rid, jsOrElse rid0 s.activeRequestId = some rid →
      rid = "" ∨ mapGet s.pendingRequests rid = none) :
    sendResponse s resp rid0 = s := by
  cases hj : jsOrElse rid0 s.activeRequestId with
  | none => exact send_of_target_none s resp rid0 hj
  | some rid =>
    by_cases hrid : rid = ""
    · subst hrid
      exact send_of_target_empty s resp rid0 hj
    · rcases h rid hj with h1 | h1
      · exact absurd h1 hrid
      · exact send_of_get_none s resp rid0 rid hj hrid h1

theorem c10_no_op_witness :
    sendResponse { conns := [freshConn],
                   pendingRequests := [("a", { resId := 0, timer := none })],
                   activeRequestId := none, serverOpen := true }
      (createErrorResponse ERROR_REQUEST_CANCELLED) (some "b")
    = { conns := [freshConn],
        pendingRequests := [("a", { resId := 0, timer := none })],
        activeRequestId := none, serverOpen := true } :=
  c10_no_op_when_target_missing _ _ _ (fun rid hj => by
    cases hj
    right
    rfl)

/-- Claim C10, counterexample to the claim as stated: with a pending entry for
"a" and `activeRequestId = some "a"`, calling `sendResponse` with the explicit
requestId "" — an identifier unknown to the ledger — is not a no-op: the empty
string is falsy, so the call falls back to the active pointer and resolves
request "a". -/
theorem c10_counterexample :
    let s0 : BridgeState :=
      { conns := [freshConn], pendingRequests := [("a", { resId := 0, timer := none })],
        activeRequestId := some "a", serverOpen := true }
    mapGet s0.pendingRequests "" = none
    ∧ sendResponse s0 { action := "end", error := none, text := "", images := [] } (some "") ≠ s0
    ∧ (sendResponse s0 { action := "end", error := none, text := "", images := [] }
        (some "")).pendingRequests = [] := by
  intro s0
  refine ⟨rfl, by decide, by decide⟩

/-- Claim C4 (amended): a request whose `requestId` is absent, non-string,
empty or whitespace-only is accepted and registered under the generated
identifier `Date.now().toString()`, which is non-empty; two such generated
identifiers are distinct whenever the two requests observe distinct clock
readings (at the same millisecond reading they coincide, and the second
registration supersedes the first — see the counterexample). -/
theorem c4_identifier_defaulting (s : BridgeState) (now n1 n2 : Nat) (f f1 f2 : JsonField)
    (tm : Option Int) :
    (isBlankRequestId f = true →
      validateRequestId now f = jsNatToString now
      ∧ validateRequestId now f ≠ ""
      ∧ (∃ q, mapGet (registerRequest s f tm now).pendingRequests (jsNatToString now) = some q
          ∧ q.resId = s.conns.length))
    ∧ (isBlankRequestId f1 = true → isBlankRequestId f2 = true → n1 ≠ n2 →
        validateRequestId n1 f1 ≠ validateRequestId n2 f2) := by
  constructor
  · intro hb
    have hv := validateRequestId_of_blank now f hb
    refine ⟨hv, validateRequestId_ne_empty now f, ?_⟩
    have h := register_pending_get s f tm now
    rw [hv] at h
    exact ⟨_, h, rfl⟩
  · intro hb1 hb2 hne
    rw [validateRequestId_of_blank n1 f1 hb1, validateRequestId_of_blank n2 f2 hb2]
    intro h
    exact hne (jsNatToString_inj h)

theorem c4_identifier_defaulting_witness :
    validateRequestId 1000 JsonField.absent = jsNatToString 1000
    ∧ validateRequestId 1000 JsonField.absent ≠ ""
    ∧ validateRequestId 1000 JsonField.absent ≠ validateRequestId 1001 (JsonField.str "   ") := by
  have h1 := (c4_identifier_defaulting initState 1000 1000 1001 JsonField.absent JsonField.absent
    (JsonField.str "   ") none).1 (by decide)
  have h2 := (c4_identifier_defaulting initState 1000 1000 1001 JsonField.absent JsonField.absent
    (JsonField.str "   ") none).2 (by decide) (by decide) (by decide)
  exact ⟨h1.1, h1.2.1, h2⟩

/-- Claim C4, counterexample to the claim as stated: two back-to-back
requests without a `requestId` that observe the same `Date.now()` millisecond
reading receive the same generated identifier, so the identifiers collide and
the second registration supersedes the first instead of coexisting with it. -/
theorem c4_counterexample :
    let s1 : BridgeState := registerRequest initState JsonField.absent none 1000
    let s2 : BridgeState := registerRequest s1 JsonField.absent none 1000
    validateRequestId 1000 JsonField.absent = validateRequestId 1000 JsonField.absent
    ∧ s2.conns[0]?
        = some { writableEnded := true,
                 written := [createErrorResponse ERROR_REQUEST_SUPERSEDED] }
    ∧ s2.pendingRequests.length = 1 := by
  intro s1 s2
  exact ⟨rfl, by decide, by decide⟩

/- Port allocator lemmas. -/

theorem firstFree_none_iff (occ : Nat → Bool) : ∀ (n start : Nat),
    firstFree occ start n = none ↔ ∀ j < n, occ (start + j) = true := by
  intro n
  induction n with
  | zero =>
    intro start
    simp [firstFree]
  | succ n ih =>
    intro start
    cases hocc : occ start with
    | false =>
      simp only [firstFree, hocc, Bool.false_eq_true, if_false]
      constructor
      · intro h; cases h
      · intro h
        have h0 := h 0 (by omega)
        rw [Nat.add_zero] at h0
        rw [h0] at hocc
        cases hocc
    | true =>
      simp only [firstFree, hocc, if_true]
      rw [ih (start + 1)]
      constructor
      · intro h j hj
        cases j with
        | zero => simpa using hocc
        | succ j =>
          have h2 := h j (by omega)
          have h3 : start + 1 + j = start + (j + 1) := by omega
          rw [h3] at h2
          exact h2
      · intro h j hj
        have h2 := h (j + 1) (by omega)
        have h3 : start + 1 + j = start + (j + 1) := by omega
        rw [h3]
        exact h2

theorem firstFree_some (occ : Nat → Bool) : ∀ (n start p : Nat),
    firstFree occ start n = some p → occ p = false ∧ start ≤ p ∧ p < start + n := by
  intro n
  induction n with
  | zero =>
    intro start p h
    cases h
  | succ n ih =>
    intro start p h
    cases hocc : occ start with
    | false =>
      rw [firstFree, hocc] at h
      simp at h
      subst h
      exact ⟨hocc, by omega, by omega⟩
    | true =>
      rw [firstFree, hocc] at h
      simp at h
      have h2 := ih (start + 1) p h
      exact ⟨h2.1, by omega, by omega⟩

theorem tryListen_scan (occ : Nat → Bool) : ∀ (n k : Nat), k + n = MAX_PORT_ATTEMPTS →
    (tryListen occ (BASE_PORT + k) k (List.range' BASE_PORT k)).port
        = firstFree occ (BASE_PORT + k) n
    ∧ (tryListen occ (BASE_PORT + k) k (List.range' BASE_PORT k)).portFileWrites
        = (firstFree occ (BASE_PORT + k) n).toList
    ∧ (∃ m, m ≤ n ∧ (tryListen occ (BASE_PORT + k) k (List.range' BASE_PORT k)).attempted
        = List.range' (BASE_PORT + k) m) := by
  intro n
  induction n with
  | zero =>
    intro k hk
    have hguard : MAX_PORT_ATTEMPTS ≤ k := by omega
    rw [tryListen, if_pos hguard]
    exact ⟨rfl, rfl, 0, Nat.le_refl _, rfl⟩
  | succ n ih =>
    intro k hk
    have hguard : ¬ MAX_PORT_ATTEMPTS ≤ k := by
      simp only [MAX_PORT_ATTEMPTS] at hk ⊢
      omega
    have hmem : (BASE_PORT + k) ∉ List.range' BASE_PORT k := by
      intro hm
      have h2 := List.mem_range'_1.mp hm
      omega
    have hnext : getNextPort (BASE_PORT + k) = BASE_PORT + (k + 1) := by
      simp only [getNextPort, BASE_PORT, MAX_PORT_ATTEMPTS] at hk ⊢
      split
      · omega
      · omega
    have htried : List.range' BASE_PORT k ++ [BASE_PORT + k] = List.range' BASE_PORT (k + 1) :=
      (List.range'_1_concat BASE_PORT k).symm
    cases hocc : occ (BASE_PORT + k) with
    | false =>
      rw [tryListen, if_neg hguard, if_neg hmem, hocc]
      simp only [Bool.false_eq_true, if_false]
      refine ⟨?_, ?_, 1, by omega, ?_⟩
      · rw [firstFree, hocc]
        simp
      · rw [firstFree, hocc]
        simp [Option.toList]
      · simp
    | true =>
      obtain ⟨ih1, ih2, m, hm, ih3⟩ := ih (k + 1) (by omega)
      rw [tryListen, if_neg hguard, if_neg hmem, hocc]
      simp only [if_true, hnext, htried]
      refine ⟨?_, ?_, m + 1, by omega, ?_⟩
      · rw [ih1, firstFree, hocc]
        simp only [if_true]
        have h3 : BASE_PORT + k + 1 = BASE_PORT + (k + 1) := by omega
        rw [h3]
      · rw [ih2, firstFree, hocc]
        simp only [if_true]
        have h3 : BASE_PORT + k + 1 = BASE_PORT + (k + 1) := by omega
        rw [h3]
      · rw [ih3]
        have h3 : BASE_PORT + k + 1 = BASE_PORT + (k + 1) := by omega
        rw [List.range'_succ, h3]

theorem allocatePort_scan (occ : Nat → Bool) :
    (allocatePort occ).port = firstFree occ BASE_PORT MAX_PORT_ATTEMPTS
    ∧ (allocatePort occ).portFileWrites = (firstFree occ BASE_PORT MAX_PORT_ATTEMPTS).toList
    ∧ (∃ m, m ≤ MAX_PORT_ATTEMPTS
        ∧ (allocatePort occ).attempted = List.range' BASE_PORT m) := by
  have h := tryListen_scan occ MAX_PORT_ATTEMPTS 0 (by omega)
  simpa [allocatePort] using h

/-- Claim C6: allocation scans the candidate ports sequentially from the fixed
base port (the attempted ports form a contiguous range starting at
`BASE_PORT`, hence no port is attempted twice within one allocation, and
`getNextPort` wraps back to the base after the range top); it fails with the
no-port-available rejection exactly when every one of the
`MAX_PORT_ATTEMPTS` candidate ports reachable within the attempt budget is
occupied, and otherwise it succeeds on the first free candidate and writes
exactly that port to the descriptor files — in particular, with the base port
occupied but some candidate free, it succeeds on a different port. -/
theorem c6_port_allocation (occ : Nat → Bool) :
    ((allocatePort occ).port = none ↔ ∀ j < MAX_PORT_ATTEMPTS, occ (BASE_PORT + j) = true)
    ∧ (∀ p, (allocatePort occ).port = some p →
        occ p = false ∧ BASE_PORT ≤ p ∧ p < BASE_PORT + MAX_PORT_ATTEMPTS
        ∧ (allocatePort occ).portFileWrites = [p])
    ∧ (∃ m, m ≤ MAX_PORT_ATTEMPTS ∧ (allocatePort occ).attempted = List.range' BASE_PORT m)
    ∧ (allocatePort occ).attempted.Nodup
    ∧ (occ BASE_PORT = true → (∃ j, j < MAX_PORT_ATTEMPTS ∧ occ (BASE_PORT + j) = false) →
        ∃ p, (allocatePort occ).port = some p ∧ p ≠ BASE_PORT ∧ occ p = false
          ∧ (allocatePort occ).portFileWrites = [p])
    ∧ getNextPort (BASE_PORT + MAX_PORT_ATTEMPTS) = BASE_PORT := by
  obtain ⟨h1, h2, m, hm, h3⟩ := allocatePort_scan occ
  have hsome : ∀ p, (allocatePort occ).port = some p →
      occ p = false ∧ BASE_PORT ≤ p ∧ p < BASE_PORT + MAX_PORT_ATTEMPTS
      ∧ (allocatePort occ).portFileWrites = [p] := by
    intro p hp
    rw [h1] at hp
    obtain ⟨hfree, hlo, hhi⟩ := firstFree_some occ MAX_PORT_ATTEMPTS BASE_PORT p hp
    refine ⟨hfree, hlo, hhi, ?_⟩
    rw [h2, hp]
    rfl
  refine ⟨?_, hsome, ⟨m, hm, h3⟩, ?_, ?_, by decide⟩
  · rw [h1]
    exact firstFree_none_iff occ MAX_PORT_ATTEMPTS BASE_PORT
  · rw [h3]
    exact List.nodup_range' BASE_PORT m 1 (by norm_num)
  · intro hbase hfree
    obtain ⟨j, hj, hjfree⟩ := hfree
    cases hp : (allocatePort occ).port with
    | none =>
      exfalso
      have hall := ((h1 ▸ (firstFree_none_iff occ MAX_PORT_ATTEMPTS BASE_PORT)).mp hp) j hj
      rw [hall] at hjfree
      cases hjfree
    | some p =>
      obtain ⟨hpfree, hlo, hhi, hw⟩ := hsome p hp
      refine ⟨p, rfl, ?_, hpfree, hw⟩
      intro he
      rw [he, hbase] at hpfree
      cases hpfree

theorem c6_port_allocation_witness :
    ∃ p, (allocatePort (fun q => q == 34500)).port = some p ∧ p ≠ BASE_PORT
      ∧ (fun q : Nat => q == 34500) p = false
      ∧ (allocatePort (fun q => q == 34500)).portFileWrites = [p] :=
  (c6_port_allocation (fun q => q == 34500)).2.2.2.2.1 (by decide)
    ⟨1, by decide, by decide⟩

/-- Claim C7 (amended): when the readiness race times out, `showPrompt` does
not attempt to deliver the show-prompt message; the catch block fires a
warning `continue` answer (asking the user to retry) for the targeted request
and returns, so nothing is posted to the surface.  Delivery happens only when
the ready signal wins the race and the view is available. -/
theorem c7_timeout_fires_warning (v : Bool) (prompt : String) (rid : Option String) :
    showPrompt v ReadyOutcome.timedOut prompt rid
      = { posted := [],
          fired := [{ action := "continue", text := WEBVIEW_NOT_READY_WARNING,
                      images := [], requestId := rid }] }
    ∧ (showPrompt v ReadyOutcome.ready prompt rid).posted
        = (if v then [{ type := "showPrompt", prompt := prompt, requestId := rid,
                        startTimer := true }] else []) := by
  constructor
  · rfl
  · cases v <;> rfl

/-- Claim C7, counterexample to the claim as stated: on a readiness-wait
timeout, `showPrompt` posts nothing to the presentation surface (even with the
view available) — instead it resolves the request with the warning `continue`
answer, contradicting the claimed optimistic delivery attempt. -/
theorem c7_counterexample :
    (showPrompt true ReadyOutcome.timedOut "question" (some "r")).posted = []
    ∧ (showPrompt true ReadyOutcome.timedOut "question" (some "r")).fired
        = [{ action := "continue", text := WEBVIEW_NOT_READY_WARNING, images := [],
             requestId := some "r" }] :=
  ⟨rfl, rfl⟩

/-- Claim C8: a submission whose text length exceeds the threshold yields an
instruction answer whose text is the pointer message naming the overflow file
that received the full text; at or below the threshold the text passes
through unchanged behind the image-failure warning. -/
theorem c8_overflow_policy (tempDir : String) (rb : List Nat) (ok : Nat → Bool)
    (text : String) (images : List String) (rid : Option String) :
    (text.length > LONG_TEXT_THRESHOLD →
      (handleSubmit tempDir rb ok text images rid).response.action = "instruction"
      ∧ (handleSubmit tempDir rb ok text images rid).response.text
          = imageWarning (((List.range images.length).filter (fun i => !ok i)).map (fun i => i + 1))
              ++ longTextPointer (overflowFilePath tempDir (bytesToHex rb))
      ∧ (handleSubmit tempDir rb ok text images rid).overflowWrites
          = [(overflowFilePath tempDir (bytesToHex rb), text)])
    ∧ (text.length ≤ LONG_TEXT_THRESHOLD →
      (handleSubmit tempDir rb ok text images rid).response.action = "instruction"
      ∧ (handleSubmit tempDir rb ok text images rid).response.text
          = imageWarning (((List.range images.length).filter (fun i => !ok i)).map (fun i => i + 1))
              ++ text
      ∧ (handleSubmit tempDir rb ok text images rid).overflowWrites = []) := by
  constructor
  · intro h
    refine ⟨?_, ?_, ?_⟩ <;> simp [handleSubmit, h]
  · intro h
    have h2 : ¬ text.length > LONG_TEXT_THRESHOLD := by omega
    refine ⟨?_, ?_, ?_⟩ <;> simp [handleSubmit, h2]

theorem c8_overflow_policy_witness :
    (handleSubmit "/tmp" [1, 2, 3, 4] (fun _ => true) longTextA [] none).overflowWrites
      = [(overflowFilePath "/tmp" (bytesToHex [1, 2, 3, 4]), longTextA)]
    ∧ (handleSubmit "/tmp" [1, 2, 3, 4] (fun _ => true) "hi" [] none).overflowWrites = [] := by
  have hlong : longTextA.length > LONG_TEXT_THRESHOLD := by decide
  exact ⟨((c8_overflow_policy "/tmp" [1, 2, 3, 4] (fun _ => true) longTextA [] none).1 hlong).2.2,
    ((c8_overflow_policy "/tmp" [1, 2, 3, 4] (fun _ => true) "hi" [] none).2 (by decide)).2.2⟩

/- String cancellation helpers for the temp-file names. -/

theorem pathJoin_name_data (dir nm1 nm2 : String) (h : pathJoin dir nm1 = pathJoin dir nm2) :
    nm1.data = nm2.data := by
  have hd := congrArg String.data h
  simp only [pathJoin, String.data_append] at hd
  exact List.append_cancel_left hd

theorem bytesToHex_data_len (b : List Nat) (h : b.length = 4) :
    (bytesToHex b).data.length = 8 := by
  have h2 := bytesToHex_length b
  rw [h] at h2
  have h3 : (bytesToHex b).length = (bytesToHex b).data.length := rfl
  rw [h3] at h2
  omega

/-- Claim C9 (amended): two submissions whose sampled random tokens differ
never share a temporary file name — image paths, overflow paths and the two
kinds of paths pairwise differ — so neither overwrites the other.  (With
equal tokens the names coincide: see the counterexample.) -/
theorem c9_distinct_tokens_distinct_names (tempDir : String) (b1 b2 : List Nat)
    (hlen1 : b1.length = 4) (hlen2 : b2.length = 4)
    (hb1 : ∀ x ∈ b1, x < 256) (hb2 : ∀ x ∈ b2, x < 256) (hne : b1 ≠ b2) :
    overflowFilePath tempDir (bytesToHex b1) ≠ overflowFilePath tempDir (bytesToHex b2)
    ∧ (∀ i j : Nat,
        imgFilePath tempDir (bytesToHex b1) i ≠ imgFilePath tempDir (bytesToHex b2) j)
    ∧ (∀ i : Nat,
        imgFilePath tempDir (bytesToHex b1) i ≠ overflowFilePath tempDir (bytesToHex b2))
    ∧ (∀ i : Nat,
        overflowFilePath tempDir (bytesToHex b1) ≠ imgFilePath tempDir (bytesToHex b2) i) := by
  have hulen : (bytesToHex b1).data.length = (bytesToHex b2).data.length := by
    rw [bytesToHex_data_len b1 hlen1, bytesToHex_data_len b2 hlen2]
  have huid : bytesToHex b1 ≠ bytesToHex b2 := by
    intro h
    exact hne (bytesToHex_inj b1 b2 (by omega) hb1 hb2 h)
  refine ⟨?_, ?_, ?_, ?_⟩
  · intro h
    have hd := pathJoin_name_data _ _ _ h
    simp only [String.data_append, List.append_assoc] at hd
    have hd2 := List.append_cancel_left hd
    exact huid (String.ext (List.append_inj hd2 hulen).1)
  · intro i j h
    have hd := pathJoin_name_data _ _ _ h
    simp only [String.data_append, List.append_assoc] at hd
    have hd2 := List.append_cancel_left hd
    exact huid (String.ext (List.append_inj hd2 hulen).1)
  · intro i h
    have hd := pathJoin_name_data _ _ _ h
    simp only [String.data_append, List.append_assoc] at hd
    simp only [List.cons_append] at hd
    injection hd with hw hrest
    injection hrest with hs _
    exact absurd hs (by decide)
  · intro i h
    have hd := pathJoin_name_data _ _ _ h
    simp only [String.data_append, List.append_assoc] at hd
    simp only [List.cons_append] at hd
    injection hd with hw hrest
    injection hrest with hs _
    exact absurd hs (by decide)

theorem c9_distinct_tokens_witness :
    overflowFilePath "/tmp" (bytesToHex [1, 2, 3, 4])
      ≠ overflowFilePath "/tmp" (bytesToHex [1, 2, 3, 5]) :=
  (c9_distinct_tokens_distinct_names "/tmp" [1, 2, 3, 4] [1, 2, 3, 5] rfl rfl
    (by decide) (by decide) (by decide)).1

/-- Claim C9, counterexample to the claim as stated: uniqueness is not
guaranteed across distinct submissions — the names depend only on the
4-byte random token, so two different submissions that sample the same token
produce identical overflow-file and image-file names, and the later one
overwrites the earlier artifacts. -/
theorem c9_counterexample :
    longTextA ≠ longTextB
    ∧ (handleSubmit "/tmp" [222, 173, 190, 239] (fun _ => true) longTextA [] none).overflowWrites.map
        Prod.fst
      = (handleSubmit "/tmp" [222, 173, 190, 239] (fun _ => true) longTextB [] none).overflowWrites.map
        Prod.fst
    ∧ (handleSubmit "/tmp" [222, 173, 190, 239] (fun _ => true) longTextA ["imgdata"] none).savedImages
      = (handleSubmit "/tmp" [222, 173, 190, 239] (fun _ => true) longTextB ["imgdata"] none).savedImages
    ∧ (handleSubmit "/tmp" [222, 173, 190, 239] (fun _ => true) longTextA [] none).overflowWrites.map
        Prod.fst ≠ [] := by
  exact ⟨by decide, by decide, by decide, by decide⟩
